import Mathlib

/-!
Verification development for the Infinite mod-installer's mod execution core.

The definitions below are a shallow embedding of the Rust sources:
* `src/file_system/manager.rs` — `FileManager` (file cache, provenance log, flush);
* `src/casc/storage.rs` — `CascStorage::extract_file` (archive path-variant fallback);
* `src/handlers/tsv.rs` — `TsvHandler::read` / `TsvHandler::write`;
* `src/runtime/script_runtime.rs` — TSV row/data conversions;
* `src/lua_api/infinite.rs` — `writeTsv` row reconstruction, `infinite.error`;
* `src/main.rs` — the per-mod orchestration loop of `install_mods`.

Modelling conventions:
* Byte buffers (`Vec<u8>`) are `List Nat`.
* `HashMap<String, FileStatus>` is an extensional map `String → Option FileStatus`;
  `HashMap<String, CachedFile>` is an association list so that flush can iterate.
* Filesystem state is a `Disk`: a map from full path strings to contents plus a
  predicate saying which write operations succeed and the OS error text a failed
  write produces.  `PathBuf::join` on the relative paths involved is string
  concatenation with "/".
* Functions that perform filesystem I/O in Rust thread a `Disk` through;
  functions that perform none (such as `write_file_to_cache`) return it
  untouched, mirroring the absence of any `fs` call in their bodies.
* Fallible Rust functions (`anyhow::Result`) return `Except String`, with the
  error strings taken from the source's `anyhow!`/`bail!` format strings.
-/

namespace Infinite

/-- Byte buffers (Rust `Vec<u8>`). -/
abbrev Bytes := List Nat

/-- Per-character model of `str::replace('\\', "/")` followed by
`str::to_lowercase()` (both are character-wise on these inputs);
`Char.toLower` models Rust's lowercase mapping. -/
def normChar (c : Char) : Char :=
  Char.toLower (if c = '\\' then '/' else c)

/-- `FileManager::normalize_path`: `path.replace('\\', "/").to_lowercase()`. -/
def normalize_path (p : String) : String :=
  ⟨p.data.map normChar⟩

/-- `FileOperationType` from `src/file_system/manager.rs`. -/
inductive FileOperationType where
  | extract
  | read
  | write
deriving DecidableEq, Repr

/-- `FileOperation` from `src/file_system/manager.rs`. -/
structure FileOperation where
  op_type : FileOperationType
  mod_id : String
deriving DecidableEq, Repr

/-- `FileStatus` from `src/file_system/manager.rs`.  The Rust field `exists`
is called `fexists` here because `exists` is a Lean keyword. -/
structure FileStatus where
  fexists : Bool
  extracted : Bool
  file_path : String
  game_file : Option Bool
  modified : Bool
  operations : List FileOperation
deriving DecidableEq, Repr

/-- `CachedFile` from `src/file_system/manager.rs`. -/
structure CachedFile where
  content : Bytes
  dirty : Bool
deriving DecidableEq, Repr

/-- Model of an opened `casclib` storage: which entry-name strings resolve to
which archive bytes (`storage.entry(v).open()` succeeds iff `entries v` is
`some`). -/
structure CascStorage where
  entries : String → Option Bytes

/-- Filesystem model.  `contents` maps a full path string to the bytes stored
there; `writeOk p` says whether creating parent directories and writing `p`
succeeds; `errMsg p` is the OS error text a failed write to `p` produces. -/
structure Disk where
  contents : String → Option Bytes
  writeOk : String → Bool
  errMsg : String → String

/-- `PathBuf::join` for the root/relative paths used by the manager. -/
def joinPath (root rel : String) : String := root ++ "/" ++ rel

/-- Write `content` at `full` (models `create_dir_all` + `fs::write` /
`File::create` + copy; both steps are covered by `writeOk`). -/
def Disk.write (d : Disk) (full : String) (content : Bytes) : Except String Disk :=
  if d.writeOk full then
    .ok { d with contents := fun q => if q = full then some content else d.contents q }
  else
    .error (d.errMsg full)

/-- `FileManager` from `src/file_system/manager.rs`. -/
structure FileManager where
  files : String → Option FileStatus
  casc_storage : Option CascStorage
  output_path : Option String
  game_path : Option String
  file_cache : List (String × CachedFile)

/-- `FileManager::new`. -/
def FileManager.new : FileManager :=
  { files := fun _ => none
    casc_storage := none
    output_path := none
    game_path := none
    file_cache := [] }

/-- Lookup in the `file_cache` association list (`HashMap::get`). -/
def cacheLookup (cache : List (String × CachedFile)) (k : String) : Option CachedFile :=
  (cache.find? (fun e => e.1 == k)).map (·.2)

/-- Insert-or-overwrite in the `file_cache` association list
(`HashMap::insert`). -/
def cacheInsert (cache : List (String × CachedFile)) (k : String) (v : CachedFile) :
    List (String × CachedFile) :=
  (k, v) :: cache.filter (fun e => !(e.1 == k))

/-- Insert-or-overwrite in the `files` map (`HashMap::entry` + mutation). -/
def mapInsert (m : String → Option FileStatus) (k : String) (v : FileStatus) :
    String → Option FileStatus :=
  fun q => if q = k then some v else m q

/-- The fresh `FileStatus` created by `FileManager::get_or_create`. -/
def freshStatus (n : String) : FileStatus :=
  { fexists := false
    extracted := false
    file_path := n
    game_file := none
    modified := false
    operations := [] }

/-- `FileManager::get_or_create` followed by reading the entry. -/
def FileManager.get_or_create (fm : FileManager) (file_path : String) : FileStatus :=
  let n := normalize_path file_path
  (fm.files n).getD (freshStatus n)

/-- `FileManager::record_extract`. -/
def FileManager.record_extract (fm : FileManager) (file_path mod_id : String) : FileManager :=
  let n := normalize_path file_path
  let s := fm.get_or_create file_path
  let s' := { s with fexists := true
                     extracted := true
                     game_file := some true
                     operations := s.operations ++ [⟨.extract, mod_id⟩] }
  { fm with files := mapInsert fm.files n s' }

/-- `FileManager::record_read`. -/
def FileManager.record_read (fm : FileManager) (file_path mod_id : String) : FileManager :=
  let n := normalize_path file_path
  let s := fm.get_or_create file_path
  let s' := { s with fexists := true
                     operations := s.operations ++ [⟨.read, mod_id⟩] }
  { fm with files := mapInsert fm.files n s' }

/-- `FileManager::record_write`. -/
def FileManager.record_write (fm : FileManager) (file_path mod_id : String) : FileManager :=
  let n := normalize_path file_path
  let s := fm.get_or_create file_path
  let s' := { s with fexists := true
                     modified := true
                     operations := s.operations ++ [⟨.write, mod_id⟩] }
  { fm with files := mapInsert fm.files n s' }

/-- `FileManager::is_extracted`. -/
def FileManager.is_extracted (fm : FileManager) (file_path : String) : Bool :=
  ((fm.files (normalize_path file_path)).map (·.extracted)).getD false

/-- `FileManager::exists` (named `exists_file` because `exists` is a Lean
keyword). -/
def FileManager.exists_file (fm : FileManager) (file_path : String) : Bool :=
  ((fm.files (normalize_path file_path)).map (·.fexists)).getD false

/-- `FileManager::is_modified`. -/
def FileManager.is_modified (fm : FileManager) (file_path : String) : Bool :=
  ((fm.files (normalize_path file_path)).map (·.modified)).getD false

/-- `FileManager::get_status`. -/
def FileManager.get_status (fm : FileManager) (file_path : String) : Option FileStatus :=
  fm.files (normalize_path file_path)

/-- `FileManager::is_cached`. -/
def FileManager.is_cached (fm : FileManager) (file_path : String) : Bool :=
  (cacheLookup fm.file_cache (normalize_path file_path)).isSome

/-- `FileManager::read_file_with_cache`.  The function performs no filesystem
writes, so the `Disk` is read-only here; the updated manager is returned. -/
def FileManager.read_file_with_cache (fm : FileManager) (d : Disk)
    (file_path mod_id : String) : Except String Bytes × FileManager :=
  let n := normalize_path file_path
  match cacheLookup fm.file_cache n with
  | some cached => (.ok cached.content, fm.record_read n mod_id)
  | none =>
    match fm.output_path with
    | none => (.error "Output path not set", fm)
    | some out =>
      let full := joinPath out n
      match d.contents full with
      | none => (.error ("File not found: " ++ full), fm)
      | some content => (.ok content, fm.record_read n mod_id)

/-- `FileManager::write_file_to_cache`.  The Rust body contains no filesystem
call at all, so the `Disk` passes through unchanged. -/
def FileManager.write_file_to_cache (fm : FileManager) (d : Disk)
    (file_path : String) (content : Bytes) (mod_id : String) : FileManager × Disk :=
  let n := normalize_path file_path
  let fm1 := { fm with file_cache := cacheInsert fm.file_cache n ⟨content, true⟩ }
  (fm1.record_write n mod_id, d)

/-- The iteration inside `FileManager::flush_cache` over the drained entries:
each dirty entry is written; the first failed write aborts the loop and its
error is returned. -/
def flushEntries (out : String) : Disk → List (String × CachedFile) →
    Except String Unit × Disk
  | d, [] => (.ok (), d)
  | d, (p, c) :: rest =>
    if c.dirty then
      match d.write (joinPath out p) c.content with
      | .ok d' => flushEntries out d' rest
      | .error e => (.error e, d)
    else flushEntries out d rest

/-- `FileManager::flush_cache`.  Rust iterates `self.file_cache.drain()`; a
`HashMap` `Drain` removes *every* entry when it is dropped, so whether the
loop completes or aborts at an IO error (the early `?` return), the cache map
is empty afterwards.  Only the "output path not set" failure happens before
the drain starts and leaves the cache intact. -/
def FileManager.flush_cache (fm : FileManager) (d : Disk) :
    Except String Unit × FileManager × Disk :=
  match fm.output_path with
  | none => (.error "Output path not set", fm, d)
  | some out =>
    let (r, d') := flushEntries out d fm.file_cache
    (r, { fm with file_cache := [] }, d')

/-- Character-wise `str::replace` with one-character pattern and replacement. -/
def replaceChar (a b : Char) (s : String) : String :=
  ⟨s.data.map (fun c => if c = a then b else c)⟩

/-- The fixed path-variant sequence tried by `CascStorage::extract_file`
(`src/casc/storage.rs`): D2R `data:data\` prefix, forward-slash prefix form,
the original path, and the two separator conversions, in this order. -/
def cascVariants (p : String) : List String :=
  [ "data:data\\" ++ p
  , "data:data/" ++ p
  , p
  , replaceChar '/' '\\' p
  , replaceChar '\\' '/' p ]

/-- First variant in the list that resolves to an archive entry. -/
def firstEntry (st : CascStorage) : List String → Option Bytes
  | [] => none
  | v :: rest =>
    match st.entries v with
    | some b => some b
    | none => firstEntry st rest

/-- `CascStorage::extract_file`: try the variants in order; on the first hit
write the bytes to `dest` and return the byte count; if no variant opens,
fail with the `FileNotFound` error naming the requested path. -/
def CascStorage.extract_file (st : CascStorage) (d : Disk) (casc_path dest : String) :
    Except String (Nat × Disk) :=
  match firstEntry st (cascVariants casc_path) with
  | some bytes =>
    match d.write dest bytes with
    | .ok d' => .ok (bytes.length, d')
    | .error e => .error e
  | none => .error ("File not found in CASC: " ++ casc_path)

/-- `FileManager::ensure_extracted` from `src/file_system/manager.rs`.
Order of the Rust function: (1) if the record says extracted and the output
copy exists, return it; (2) if a CASC storage *and* an output path are set,
extract via the archive (using the *original* path for the variants) — an
archive failure propagates, it does not fall through; (3) otherwise, if a
game path and an output path are set and the file exists in the game tree,
copy it across; (4) otherwise fail naming the requested path. -/
def FileManager.ensure_extracted (fm : FileManager) (d : Disk)
    (file_path mod_id : String) : Except String String × FileManager × Disk :=
  let n := normalize_path file_path
  let alreadyAt : Option String :=
    if fm.is_extracted n then
      match fm.output_path with
      | some out => if (d.contents (joinPath out n)).isSome then some (joinPath out n) else none
      | none => none
    else none
  match alreadyAt with
  | some pathHit => (.ok pathHit, fm, d)
  | none =>
    match fm.casc_storage, fm.output_path with
    | some st, some out =>
      let dest := joinPath out n
      match st.extract_file d file_path dest with
      | .ok (_, d') => (.ok dest, fm.record_extract n mod_id, d')
      | .error e => (.error e, fm, d)
    | _, _ =>
      match fm.game_path, fm.output_path with
      | some g, some out =>
        let src := joinPath g n
        match d.contents src with
        | some bytes =>
          let dest := joinPath out n
          match d.write dest bytes with
          | .ok d' => (.ok dest, fm.record_extract n mod_id, d')
          | .error e => (.error e, fm, d)
        | none =>
          (.error ("CASC storage not configured and file not found in game directory: "
            ++ file_path), fm, d)
      | _, _ =>
        (.error ("CASC storage not configured and file not found in game directory: "
          ++ file_path), fm, d)

/-!  TSV codec (`src/handlers/tsv.rs`) and TSV data conversions
(`src/runtime/script_runtime.rs`, `src/runtime/api.rs`). -/

/-- The per-field quoting rule of `TsvHandler::write` and
`ScriptServices::write_tsv`: a field containing a comma
(Rust `field.contains(',')`, i.e. some character of the field is a comma)
is wrapped in double quotes, any other field is emitted verbatim. -/
def formatField (field : String) : String :=
  if field.data.contains ',' then "\"" ++ field ++ "\"" else field

/-- Serialization loop of `TsvHandler::write`: each row's fields are quoted
as needed, joined with tabs, and every row ends with a newline. -/
def TsvHandler.write (data : List (List String)) : String :=
  data.foldl (fun content row =>
    content ++ String.intercalate "\t" (row.map formatField) ++ "\n") ""

/-- State machine of the `csv`-crate reader as configured by
`TsvHandler::read` (tab delimiter, no headers, flexible, quoting with
double-quote escapes, CRLF/LF/CR terminators, completely empty lines
skipped).  Arguments: remaining input, inside-quotes flag, current field,
current record, finished records. -/
def csvAux : List Char → Bool → List Char → List String → List (List String) →
    List (List String)
  | [], inQ, field, rec, out =>
    if !inQ && field.isEmpty && rec.isEmpty then out
    else out ++ [rec ++ [String.mk field]]
  | '\"' :: '\"' :: rest, true, field, rec, out =>
    csvAux rest true (field ++ ['\"']) rec out
  | '\"' :: rest, true, field, rec, out => csvAux rest false field rec out
  | c :: rest, true, field, rec, out => csvAux rest true (field ++ [c]) rec out
  | '\t' :: rest, false, field, rec, out =>
    csvAux rest false [] (rec ++ [String.mk field]) out
  | '\r' :: '\n' :: rest, false, field, rec, out =>
    if field.isEmpty && rec.isEmpty then csvAux rest false [] [] out
    else csvAux rest false [] [] (out ++ [rec ++ [String.mk field]])
  | '\n' :: rest, false, field, rec, out =>
    if field.isEmpty && rec.isEmpty then csvAux rest false [] [] out
    else csvAux rest false [] [] (out ++ [rec ++ [String.mk field]])
  | '\r' :: rest, false, field, rec, out =>
    if field.isEmpty && rec.isEmpty then csvAux rest false [] [] out
    else csvAux rest false [] [] (out ++ [rec ++ [String.mk field]])
  | '\"' :: rest, false, field, rec, out =>
    if field.isEmpty then csvAux rest true [] rec out
    else csvAux rest false (field ++ ['\"']) rec out
  | c :: rest, false, field, rec, out => csvAux rest false (field ++ [c]) rec out

/-- `TsvHandler::read`: parse the file content into records. -/
def TsvHandler.read (content : String) : List (List String) :=
  csvAux content.data false [] [] []

/-- `TsvRow` from `src/runtime/api.rs`: a `HashMap<String, String>`,
modelled extensionally. -/
structure TsvRow where
  data : String → Option String

/-- `TsvData` from `src/runtime/api.rs`. -/
structure TsvData where
  headers : List String
  rows : List TsvRow

/-- The map built by `ScriptServices::tsv_rows_to_data` for one data row:
`data.insert(headers[i], row[i])` for every `i` in range of both lists, so
the *last* insertion for a repeated header wins. -/
def rowMap (headers row : List String) : String → Option String :=
  fun k => (((headers.zip row).reverse.find? (fun e => e.1 == k)).map (·.2))

/-- `ScriptServices::tsv_rows_to_data`: first row is the header row, the
rest become header-keyed maps. -/
def tsv_rows_to_data : List (List String) → TsvData
  | [] => { headers := [], rows := [] }
  | headers :: rest =>
    { headers := headers
      rows := rest.map (fun row => { data := rowMap headers row }) }

/-- Row-matrix conversion inside `ScriptServices::write_tsv`: the header row
followed by, for each data row, the value stored under each header name
(empty string when the key is absent). -/
def write_tsv_rows (data : TsvData) : List (List String) :=
  data.headers :: data.rows.map (fun row =>
    data.headers.map (fun h => (row.data h).getD ""))

/-!  The Lua-facing `writeTsv` row reconstruction
(`src/lua_api/infinite.rs`, lines 209-250). -/

/-- A Lua row table as `writeTsv` observes it: values reachable through a
positive integer key and values reachable through a header-name string key. -/
structure LuaRow where
  numeric : Nat → Option String
  named : String → Option String

/-- One cell of the reconstruction loop of `writeTsv` (`for col_idx in
1..=max_col`): the *numeric* index is consulted first; only when it has no
value and `col_idx` is within the header list is the header-name key tried;
otherwise the empty string is emitted. -/
def writeTsvCell (header_row : List String) (row : LuaRow) (col_idx : Nat) : String :=
  match row.numeric col_idx with
  | some v => v
  | none =>
    if col_idx ≤ header_row.length then
      match header_row.get? (col_idx - 1) with
      | some h => (row.named h).getD ""
      | none => ""
    else ""

/-- A full data row as reconstructed by `writeTsv` when a `__headers__` list
is present (`num_columns` = header count). -/
def writeTsvRow (header_row : List String) (row : LuaRow) : List String :=
  (List.range' 1 header_row.length).map (writeTsvCell header_row row)

/-- Modelled from the spec's words for claim C5 (the claimed priority): the
value stored under the header's name is used, the positional (1-based) value
is used when the row lacks that header key, and the empty string when
neither is present. -/
def writeTsvCellClaimed (header_row : List String) (row : LuaRow) (col_idx : Nat) : String :=
  match (header_row.get? (col_idx - 1)).bind row.named with
  | some v => v
  | none => (row.numeric col_idx).getD ""

/-- The amended priority, stated independently of `writeTsvCell`: the
positional (1-based) value when present, else the value under the header's
name, else the empty string. -/
def writeTsvCellAmended (header_row : List String) (row : LuaRow) (col_idx : Nat) : String :=
  (Option.getD
    ((row.numeric col_idx).orElse (fun _ =>
      if col_idx ≤ header_row.length then (header_row.get? (col_idx - 1)).bind row.named
      else none))
    "")

/-!  Script fatal errors and the orchestration loop (`src/lua_api/infinite.rs`
`infinite.error`, `src/runtime/executor.rs` `execute_mod`, `src/main.rs`
`install_mods`). -/

/-- `mlua::Error` as produced by the host API. -/
inductive LuaError where
  | runtimeError (msg : String)

/-- `mlua`'s rendering of a runtime error. -/
def luaErrorMessage : LuaError → String
  | .runtimeError m => "runtime error: " ++ m

/-- The `infinite.error` global registered in `InfiniteApi::register_globals`:
`|_, msg| Err(LuaError::RuntimeError(msg))`. -/
def infiniteErrorFn (msg : String) : Except LuaError Unit :=
  .error (.runtimeError msg)

/-- Behaviour of one mod's script: it either runs to completion or aborts by
calling the host throw operation `infinite.error(msg)`. -/
inductive ModScript where
  | done
  | throws (msg : String)

/-- `ModExecutor::execute_mod`: a host-raised `LuaError` propagates out of
`exec_async` and is wrapped as `"Failed to execute mod.lua: {e}"`. -/
def execute_mod : ModScript → Except String Unit
  | .done => .ok ()
  | .throws msg =>
    match infiniteErrorFn msg with
    | .error e => .error ("Failed to execute mod.lua: " ++ luaErrorMessage e)
    | .ok _ => .ok ()

/-- The per-mod loop of `install_mods` (`src/main.rs` 256-298): every mod in
the input order is executed; an `Err` branch prints the failure and
continues, so each mod's outcome is independent of the previous ones. -/
def install_mods_results (mods : List ModScript) : List (Except String Unit) :=
  mods.map execute_mod

/-!  Concrete fixtures used by witnesses and counterexamples. -/

/-- A disk whose every path holds the bytes `[9, 9, 9]` and on which every
write succeeds. -/
def demoDisk : Disk :=
  { contents := fun _ => some [9, 9, 9]
    writeOk := fun _ => true
    errMsg := fun _ => "os error" }

/-- A disk with no files on which every write succeeds. -/
def emptyDisk : Disk :=
  { contents := fun _ => none
    writeOk := fun _ => true
    errMsg := fun _ => "os error" }

/-- A disk with no files on which every write fails with a permission error. -/
def diskAllFail : Disk :=
  { contents := fun _ => none
    writeOk := fun _ => false
    errMsg := fun _ => "Permission denied (os error 13)" }

/-- A fresh manager with only the output path configured. -/
def fmOut : FileManager := { FileManager.new with output_path := some "out" }

/-- `fmOut` after mod `modA` wrote `[1, 2]` to `items.json` through the cache. -/
def fmAfterWrite : FileManager :=
  (fmOut.write_file_to_cache demoDisk "items.json" [1, 2] "modA").1

/-- A manager with one dirty cache entry. -/
def fmOneDirty : FileManager :=
  { FileManager.new with output_path := some "o", file_cache := [("a", ⟨[1], true⟩)] }

/-- A manager with two dirty cache entries. -/
def fmTwoDirty : FileManager :=
  { FileManager.new with
      output_path := some "out"
      file_cache := [("a.txt", ⟨[1], true⟩), ("b.txt", ⟨[2], true⟩)] }

/-- An archive with a single entry stored under the D2R namespaced name. -/
def demoCasc : CascStorage :=
  ⟨fun v => if v = "data:data\\X.json" then some [7] else none⟩

/-- A manager with an open archive backend and an output path. -/
def fmCasc : FileManager :=
  { FileManager.new with output_path := some "o", casc_storage := some demoCasc }

/-- A Lua row carrying both a positional value and a header-keyed value for
column 1 of header list `["a"]`. -/
def demoLuaRow : LuaRow :=
  { numeric := fun i => if i = 1 then some "pos" else none
    named := fun s => if s = "a" then some "named" else none }

/-- The logical row `{"a" ↦ "1", "b" ↦ "2,3"}`. -/
def demoRow : TsvRow :=
  ⟨fun k => if k = "a" then some "1" else if k = "b" then some "2,3" else none⟩

/-- The logical table with headers `["a", "b"]` and the single row `demoRow`. -/
def demoTable : TsvData := ⟨["a", "b"], [demoRow]⟩

end Infinite

namespace Infinite

/-!  Helper lemmas. -/

/-- `Char.ofNat` round-trips on valid scalar values below the surrogate range. -/
theorem charOfNat_toNat {n : Nat} (h : n < 55296) : (Char.ofNat n).toNat = n := by
  have hv : n.isValidChar := Or.inl h
  rw [Char.ofNat, dif_pos hv]
  rfl

/-- Arithmetic characterisation of `Char.toLower`. -/
theorem toLower_toNat (c : Char) :
    (Char.toLower c).toNat =
      if c.toNat ≥ 65 ∧ c.toNat ≤ 90 then c.toNat + 32 else c.toNat := by
  unfold Char.toLower
  split
  case isTrue h =>
    rw [if_pos h, charOfNat_toNat (by omega)]
  case isFalse h =>
    rw [if_neg h]

/-- `Char.toLower` fixes characters outside the upper-case ASCII range. -/
theorem toLower_eq_self {c : Char} (h : ¬(c.toNat ≥ 65 ∧ c.toNat ≤ 90)) :
    Char.toLower c = c := by
  unfold Char.toLower
  rw [if_neg h]

/-- Characters with equal codepoints are equal. -/
theorem char_eq_of_toNat_eq {a b : Char} (h : a.toNat = b.toNat) : a = b :=
  Char.ext (UInt32.toNat.inj h)

/-- Characters with distinct codepoints are distinct. -/
theorem ne_of_toNat_ne {a b : Char} (h : a.toNat ≠ b.toNat) : a ≠ b := by
  intro he
  exact h (by rw [he])

/-- The per-character normalisation is idempotent: it never produces a
backslash or an upper-case ASCII letter. -/
theorem normChar_idem (c : Char) : normChar (normChar c) = normChar c := by
  unfold normChar
  set c' := if c = '\\' then '/' else c with hc'
  have hc'ne : c' ≠ '\\' := by
    rw [hc']
    split
    · decide
    · assumption
  have h92 : ('\\' : Char).toNat = 92 := by decide
  have hslash : Char.toLower c' ≠ '\\' := by
    apply ne_of_toNat_ne
    rw [toLower_toNat, h92]
    by_cases h : c'.toNat ≥ 65 ∧ c'.toNat ≤ 90
    · rw [if_pos h]
      omega
    · rw [if_neg h]
      intro hx
      exact hc'ne (char_eq_of_toNat_eq (by rw [hx, h92]))
  rw [if_neg hslash]
  apply toLower_eq_self
  rw [toLower_toNat]
  by_cases h : c'.toNat ≥ 65 ∧ c'.toNat ≤ 90
  · rw [if_pos h]
    omega
  · rw [if_neg h]
    exact h

/-- `normalize_path` is idempotent. -/
theorem normalize_path_idem (p : String) :
    normalize_path (normalize_path p) = normalize_path p := by
  unfold normalize_path
  congr 1
  show (p.data.map normChar).map normChar = p.data.map normChar
  rw [List.map_map]
  exact List.map_congr_left (fun a _ => normChar_idem a)

/-- Looking up the just-inserted key of the cache map finds the new entry. -/
theorem cacheLookup_insert_self (cache : List (String × CachedFile)) (k : String)
    (v : CachedFile) : cacheLookup (cacheInsert cache k v) k = some v := by
  simp [cacheLookup, cacheInsert, List.find?]

/-- Inserting into the cache map leaves every other key unchanged. -/
theorem cacheLookup_insert_ne (cache : List (String × CachedFile)) (k k' : String)
    (v : CachedFile) (h : k' ≠ k) :
    cacheLookup (cacheInsert cache k v) k' = cacheLookup cache k' := by
  simp only [cacheLookup, cacheInsert]
  have hk : (k == k') = false := by
    simp only [beq_eq_false_iff_ne, ne_eq]
    exact fun he => h he.symm
  rw [List.find?_cons_of_neg _ (by simp [hk]), List.find?_filter]
  have hpred : (fun (e : String × CachedFile) => (!(e.1 == k) && (e.1 == k')))
      = (fun e => e.1 == k') := by
    funext e
    by_cases he : e.1 = k'
    · have : (e.1 == k) = false := by
        simp only [beq_eq_false_iff_ne, ne_eq, he]
        exact fun hx => h hx
      simp [he, this]
      exact h
    · simp [he]
  simp only [Bool.decide_and, Bool.decide_coe] at *
  rw [hpred]

/-- An aborted flush got its error from some dirty entry whose write failed;
`writeOk` and `errMsg` do not change along the iteration. -/
theorem flushEntries_error (out : String) (l : List (String × CachedFile)) (d : Disk)
    (e : String) (h : (flushEntries out d l).1 = .error e) :
    ∃ p c, (p, c) ∈ l ∧ c.dirty = true ∧ d.writeOk (joinPath out p) = false
      ∧ e = d.errMsg (joinPath out p) := by
  induction l generalizing d with
  | nil => simp [flushEntries] at h
  | cons pc rest ih =>
    obtain ⟨p, c⟩ := pc
    by_cases hd : c.dirty
    · rw [flushEntries, if_pos hd] at h
      by_cases hw : d.writeOk (joinPath out p)
      · rw [Disk.write, if_pos hw] at h
        dsimp only at h
        obtain ⟨q, c', hmem, hdq, hwq, heq⟩ := ih _ h
        exact ⟨q, c', List.mem_cons_of_mem _ hmem, hdq, hwq, heq⟩
      · rw [Disk.write, if_neg hw] at h
        dsimp only at h
        exact ⟨p, c, List.mem_cons_self _ _, hd, by simpa using hw,
          (Except.error.injEq _ _).mp h.symm⟩
    · rw [flushEntries, if_neg hd] at h
      obtain ⟨q, c', hmem, hdq, hwq, heq⟩ := ih _ h
      exact ⟨q, c', List.mem_cons_of_mem _ hmem, hdq, hwq, heq⟩

end Infinite

namespace Infinite

/-- C1: cache-chaining law.  For every manager state in which path `p` has a
pending `CachedFile` `c` (and whatever the disk holds), a read of `p` through
`read_file_with_cache` by any actor returns exactly the cached bytes, never
the on-disk content; and immediately after any mod writes `b` to `p` through
`write_file_to_cache`, a read of `p` by any other actor returns `b` (the most
recent write wins, since the write overwrote the entry). -/
theorem read_with_cache_pending_entry
    (fm : FileManager) (d : Disk) (p reader : String) (c : CachedFile)
    (hpend : cacheLookup fm.file_cache (normalize_path p) = some c) :
    (fm.read_file_with_cache d p reader).1 = .ok c.content
    ∧ ∀ (d2 : Disk) (b : Bytes) (writer : String),
        (((fm.write_file_to_cache d2 p b writer).1).read_file_with_cache d p reader).1
          = .ok b := by
  constructor
  · simp [FileManager.read_file_with_cache, hpend]
  · intro d2 b writer
    have hcache : cacheLookup ((fm.write_file_to_cache d2 p b writer).1).file_cache
        (normalize_path p) = some ⟨b, true⟩ :=
      cacheLookup_insert_self _ _ _
    simp [FileManager.read_file_with_cache, hcache]

theorem read_with_cache_pending_entry_witness :
    (fmAfterWrite.read_file_with_cache demoDisk "items.json" "modB").1 = .ok [1, 2] :=
  (read_with_cache_pending_entry fmAfterWrite demoDisk "items.json" "modB"
    ⟨[1, 2], true⟩ (by decide)).1

/-- C3: a write never touches disk before flush.  `write_file_to_cache`
leaves the disk exactly as it was (the Rust body performs no filesystem
call), installs the dirty cache entry for the normalized path, appends a
`Write` operation to that path's record (marking it modified), and changes
no other path's record or cache entry. -/
theorem write_file_to_cache_no_disk_io
    (fm : FileManager) (d : Disk) (p : String) (b : Bytes) (a : String) :
    (fm.write_file_to_cache d p b a).2 = d
    ∧ cacheLookup (fm.write_file_to_cache d p b a).1.file_cache (normalize_path p)
        = some ⟨b, true⟩
    ∧ (∃ s, (fm.write_file_to_cache d p b a).1.files (normalize_path p) = some s
        ∧ s.modified = true ∧ s.fexists = true
        ∧ s.operations = (fm.get_or_create p).operations ++ [⟨.write, a⟩])
    ∧ (∀ k, k ≠ normalize_path p →
        (fm.write_file_to_cache d p b a).1.files k = fm.files k
        ∧ cacheLookup (fm.write_file_to_cache d p b a).1.file_cache k
            = cacheLookup fm.file_cache k) := by
  have hidem := normalize_path_idem p
  refine ⟨rfl, ?_, ?_, ?_⟩
  · exact cacheLookup_insert_self _ _ _
  · simp only [FileManager.write_file_to_cache, FileManager.record_write,
      FileManager.get_or_create, hidem]
    refine ⟨{ fm.get_or_create p with
                fexists := true
                modified := true
                operations := (fm.get_or_create p).operations ++ [⟨.write, a⟩] },
      ?_, rfl, rfl, rfl⟩
    simp [mapInsert, FileManager.get_or_create]
  · intro k hk
    constructor
    · simp only [FileManager.write_file_to_cache, FileManager.record_write,
        FileManager.get_or_create, hidem]
      simp [mapInsert, hk]
    · exact cacheLookup_insert_ne _ _ _ _ hk

theorem write_file_to_cache_no_disk_io_witness :
    (fmOut.write_file_to_cache demoDisk "a.txt" [5] "m").2 = demoDisk
    ∧ (fmOut.write_file_to_cache demoDisk "a.txt" [5] "m").1.files "other.txt"
        = fmOut.files "other.txt" :=
  ⟨(write_file_to_cache_no_disk_io fmOut demoDisk "a.txt" [5] "m").1,
   ((write_file_to_cache_no_disk_io fmOut demoDisk "a.txt" [5] "m").2.2.2
      "other.txt" (by decide)).1⟩

/-- C10: read-failure atomicity.  When `p` has no pending cache entry and
either no output path is configured or the output copy is absent from disk,
`read_file_with_cache` returns an error and the manager state is returned
completely unchanged: no record is created, no `Read` operation is appended,
the cache is untouched (the function performs no disk writes at all). -/
theorem read_failure_atomic
    (fm : FileManager) (d : Disk) (p a : String)
    (h1 : cacheLookup fm.file_cache (normalize_path p) = none)
    (h2 : ∀ out, fm.output_path = some out →
      d.contents (joinPath out (normalize_path p)) = none) :
    (∃ e, (fm.read_file_with_cache d p a).1 = .error e)
    ∧ (fm.read_file_with_cache d p a).2 = fm := by
  rcases hout : fm.output_path with _ | out
  · simp [FileManager.read_file_with_cache, h1, hout]
  · simp [FileManager.read_file_with_cache, h1, hout, h2 out hout]

theorem read_failure_atomic_witness :
    (∃ e, (fmOut.read_file_with_cache emptyDisk "a.txt" "m").1 = .error e)
    ∧ (fmOut.read_file_with_cache emptyDisk "a.txt" "m").2 = fmOut :=
  read_failure_atomic fmOut emptyDisk "a.txt" "m" rfl (fun _ _ => rfl)

/-- C7: single-flush idempotence.  After a successful `flush_cache`, a second
`flush_cache` with no intervening writes succeeds, performs zero disk writes
(the disk is returned unchanged) and leaves the manager unchanged, because
the first flush drained every cached entry. -/
theorem flush_cache_idempotent
    (fm : FileManager) (d : Disk) (fm' : FileManager) (d' : Disk)
    (h : fm.flush_cache d = (.ok (), fm', d')) :
    fm'.flush_cache d' = (.ok (), fm', d') := by
  unfold FileManager.flush_cache at h ⊢
  rcases hout : fm.output_path with _ | out
  · rw [hout] at h
    simp at h
  · rw [hout] at h
    dsimp only at h
    rcases hpr : flushEntries out d fm.file_cache with ⟨r, d2⟩
    rw [hpr] at h
    dsimp only at h
    have h2 := congrArg (fun x : Except String Unit × FileManager × Disk => x.2.1) h
    have h3 := congrArg (fun x : Except String Unit × FileManager × Disk => x.2.2) h
    dsimp only at h2 h3
    subst h2
    subst h3
    rfl

theorem flush_cache_idempotent_witness :
    ∃ fm' d', fmOneDirty.flush_cache demoDisk = (.ok (), fm', d')
      ∧ fm'.flush_cache d' = (.ok (), fm', d') :=
  ⟨_, _, rfl, flush_cache_idempotent fmOneDirty demoDisk _ _ rfl⟩

end Infinite

namespace Infinite

/-- C2 counterexample: with two dirty entries and a disk on which every write
fails, `flush_cache` aborts with an error, yet the dirty entry for
`"b.txt"` — which was never written to disk — is *not* left in the cache:
the drain empties `file_cache` entirely, so a retry has nothing to write.
This refutes the claim that unwritten dirty entries remain in the
`FileCache` after a failed flush. -/
theorem flush_failure_discards_pending :
    (∃ e, (fmTwoDirty.flush_cache diskAllFail).1 = .error e)
    ∧ (fmTwoDirty.flush_cache diskAllFail).2.2.contents (joinPath "out" "b.txt") = none
    ∧ (fmTwoDirty.flush_cache diskAllFail).2.1.file_cache = [] :=
  ⟨⟨"Permission denied (os error 13)", rfl⟩, rfl, rfl⟩

/-- C2 amended: when an output path is configured, `flush_cache` aborts at
the first dirty entry whose write fails and returns that entry's IO error,
but the `HashMap::drain` call empties the cache whether or not the loop
completed, so after *any* flush the cache is empty and a subsequent
`flush_cache` is a successful no-op (there is nothing left to retry). -/
theorem flush_cache_drains_even_on_failure
    (fm : FileManager) (d : Disk) (out : String)
    (hout : fm.output_path = some out) :
    (fm.flush_cache d).2.1.file_cache = []
    ∧ ((fm.flush_cache d).2.1.flush_cache (fm.flush_cache d).2.2
        = (.ok (), (fm.flush_cache d).2.1, (fm.flush_cache d).2.2))
    ∧ (∀ e, (fm.flush_cache d).1 = .error e →
        ∃ p c, (p, c) ∈ fm.file_cache ∧ c.dirty = true
          ∧ d.writeOk (joinPath out p) = false
          ∧ e = d.errMsg (joinPath out p)) := by
  unfold FileManager.flush_cache
  rw [hout]
  dsimp only
  rcases hpr : flushEntries out d fm.file_cache with ⟨r, d2⟩
  refine ⟨rfl, ?_, ?_⟩
  · rfl
  · intro e he
    apply flushEntries_error out fm.file_cache d e
    rw [hpr]
    exact he

theorem flush_cache_drains_even_on_failure_witness :
    (fmTwoDirty.flush_cache diskAllFail).2.1.file_cache = []
    ∧ (∃ p c, (p, c) ∈ fmTwoDirty.file_cache ∧ c.dirty = true
        ∧ diskAllFail.writeOk (joinPath "out" p) = false
        ∧ "Permission denied (os error 13)" = diskAllFail.errMsg (joinPath "out" p)) :=
  ⟨(flush_cache_drains_even_on_failure fmTwoDirty diskAllFail "out" rfl).1,
   (flush_cache_drains_even_on_failure fmTwoDirty diskAllFail "out" rfl).2.2
     "Permission denied (os error 13)" rfl⟩

/-- C6: path-normalization idempotence and lookup invariance.  For every
path, normalizing twice equals normalizing once; after `record_extract` on
one spelling, `exists` answers true for every spelling that normalizes
identically (case/separator invariance); and any two spellings that
normalize identically always resolve to the same record, so two records for
them cannot exist. -/
theorem normalization_invariance :
    (∀ p : String, normalize_path (normalize_path p) = normalize_path p)
    ∧ (∀ (fm : FileManager) (p q m : String), normalize_path p = normalize_path q →
        (fm.record_extract p m).exists_file q = true)
    ∧ (∀ (fm : FileManager) (p q : String), normalize_path p = normalize_path q →
        fm.get_status p = fm.get_status q) := by
  refine ⟨normalize_path_idem, ?_, ?_⟩
  · intro fm p q m h
    simp [FileManager.record_extract, FileManager.exists_file, mapInsert, ← h]
  · intro fm p q h
    simp [FileManager.get_status, h]

theorem normalization_invariance_witness :
    normalize_path "data/x.json" = normalize_path "Data\\X.json"
    ∧ (FileManager.new.record_extract "data/x.json" "m").exists_file "Data\\X.json" = true :=
  ⟨by decide, normalization_invariance.2.1 FileManager.new _ _ "m" (by decide)⟩

end Infinite

namespace Infinite

/-- C5 counterexample: for header list `["a"]` and a row holding `"pos"`
under the numeric index 1 and `"named"` under the header key `"a"`, the
`writeTsv` reconstruction emits `"pos"`, while the claimed rule (header name
first, positional fallback) would emit `"named"`.  The code consults the
positional value first, not the header-named value. -/
theorem writeTsv_header_priority_counterexample :
    writeTsvRow ["a"] demoLuaRow = ["pos"]
    ∧ writeTsvCellClaimed ["a"] demoLuaRow 1 = "named"
    ∧ ("pos" : String) ≠ "named" :=
  ⟨rfl, rfl, by decide⟩

/-- C5 amended: each data row is reconstructed column-by-column over the
header count; for each column the positional (1-based) value is used when
present, the value stored under that column's header name is used when the
positional one is absent, and the empty string is emitted when neither is
present. -/
theorem writeTsv_cell_reconstruction (hr : List String) (row : LuaRow) (i : Nat) :
    writeTsvCell hr row i = writeTsvCellAmended hr row i
    ∧ writeTsvRow hr row = (List.range' 1 hr.length).map (writeTsvCellAmended hr row) := by
  have key : ∀ j, writeTsvCell hr row j = writeTsvCellAmended hr row j := by
    intro j
    unfold writeTsvCell writeTsvCellAmended
    cases hn : row.numeric j with
    | some v => simp [hn, Option.orElse]
    | none =>
      simp only [hn, Option.orElse]
      split
      case isTrue h =>
        cases hg : hr.get? (j - 1) with
        | some hd => simp [hg]
        | none => simp [hg]
      case isFalse h => simp
  exact ⟨key i, List.map_congr_left (fun j _ => key j)⟩

/-- C8: TSV round-trip with comma quoting.  For headers `["a", "b"]` and the
single row `{"a" ↦ "1", "b" ↦ "2,3"}`: the serialized content is exactly
`"a\tb\n1\t\"2,3\"\n"` (the comma-carrying field quoted, the other fields
bare), reading it back restores the same row matrix, and converting back to
the logical form restores the same headers and the same row mapping.  In
general a field is quoted on write exactly when it contains a comma. -/
theorem tsv_round_trip_comma_quoting :
    TsvHandler.write (write_tsv_rows demoTable) = "a\tb\n1\t\"2,3\"\n"
    ∧ TsvHandler.read (TsvHandler.write (write_tsv_rows demoTable)) = write_tsv_rows demoTable
    ∧ (tsv_rows_to_data (TsvHandler.read (TsvHandler.write (write_tsv_rows demoTable)))).headers
        = demoTable.headers
    ∧ (∀ k, ((tsv_rows_to_data (TsvHandler.read (TsvHandler.write
        (write_tsv_rows demoTable)))).rows.headD ⟨fun _ => none⟩).data k = demoRow.data k)
    ∧ (∀ f : String, (f.data.contains ',' = true → formatField f = "\"" ++ f ++ "\"")
        ∧ (f.data.contains ',' = false → formatField f = f)) := by
  refine ⟨by decide, by decide, rfl, ?_, ?_⟩
  · intro k
    show rowMap ["a", "b"] ["1", "2,3"] k = demoRow.data k
    by_cases ha : k = "a"
    · simp [rowMap, demoRow, ha]
    · by_cases hb : k = "b"
      · simp [rowMap, demoRow, ha, hb]
      · simp only [rowMap, demoRow, ha, hb]
        simp only [List.zip, List.zipWith, List.reverse, List.find?]
        have h1 : (("b" : String) == k) = false := by
          simp only [beq_eq_false_iff_ne, ne_eq]
          exact fun h => hb h.symm
        have h2 : (("a" : String) == k) = false := by
          simp only [beq_eq_false_iff_ne, ne_eq]
          exact fun h => ha h.symm
        simp [h1, h2, ha, hb]
  · intro f
    constructor
    · intro h
      unfold formatField
      rw [h]
      simp
    · intro h
      unfold formatField
      rw [h]
      simp

theorem tsv_round_trip_comma_quoting_witness :
    formatField "2,3" = "\"" ++ "2,3" ++ "\"" ∧ formatField "1" = "1" :=
  ⟨(tsv_round_trip_comma_quoting.2.2.2.2 "2,3").1 rfl,
   (tsv_round_trip_comma_quoting.2.2.2.2 "1").2 rfl⟩

/-- C9: script fatal errors are isolated.  Wherever a mod that calls the
host throw operation with message "boom" sits in the input order, its
`execute_mod` outcome is an error whose message contains "boom", and every
following mod is still executed: the result list covers the whole input
order and the entry after the failing mod equals that mod's own execution
outcome, unaffected by the failure. -/
theorem script_error_isolated (pre post : List ModScript) :
    (install_mods_results (pre ++ ModScript.throws "boom" :: post)).length
        = pre.length + 1 + post.length
    ∧ (∃ e, (install_mods_results (pre ++ ModScript.throws "boom" :: post))[pre.length]?
        = some (.error e) ∧ "boom".data <:+: e.data)
    ∧ (∀ k, (install_mods_results (pre ++ ModScript.throws "boom" :: post))[pre.length + 1 + k]?
        = (post[k]?).map execute_mod) := by
  refine ⟨?_, ?_, ?_⟩
  · simp [install_mods_results]
    omega
  · refine ⟨"Failed to execute mod.lua: runtime error: boom", ?_, by decide⟩
    rw [install_mods_results, List.map_append]
    rw [List.getElem?_append_right (by simp)]
    simp
    rfl
  · intro k
    rw [install_mods_results, List.map_append]
    rw [List.getElem?_append_right (by simp; omega)]
    have : pre.length + 1 + k - (pre.map execute_mod).length = k + 1 := by
      simp
      omega
    rw [this]
    simp

end Infinite

namespace Infinite

/-- C4: extraction fallback order (with an output root configured, as the
orchestrator always does).  (1) When the record says extracted and the
output copy exists on disk, that path is returned with no other effect.
(2) Otherwise, when an archive backend is open, the archive is consulted
with the fixed variant sequence `cascVariants` (namespaced-prefix forms and
both separator conventions, in order); the first hit is copied to
`output_root/normalized(p)` and an `Extract` operation is recorded, and an
archive miss is an error naming the path — it does not fall through.
(3) Only with no archive backend open is the same relative path copied out
of the raw game-install tree.  (4) When the archive is absent and the game
tree misses as well, the result is a not-found error naming the path. -/
theorem ensure_extracted_fallback_order
    (fm : FileManager) (d : Disk) (p a out : String)
    (hout : fm.output_path = some out) :
    (fm.is_extracted (normalize_path p) = true →
      (d.contents (joinPath out (normalize_path p))).isSome = true →
      fm.ensure_extracted d p a = (.ok (joinPath out (normalize_path p)), fm, d))
    ∧ ((fm.is_extracted (normalize_path p) = true →
          d.contents (joinPath out (normalize_path p)) = none) →
        ∀ st, fm.casc_storage = some st →
        (∀ b, firstEntry st (cascVariants p) = some b →
          d.writeOk (joinPath out (normalize_path p)) = true →
          fm.ensure_extracted d p a =
            (.ok (joinPath out (normalize_path p)),
             fm.record_extract (normalize_path p) a,
             { d with contents := fun q =>
                 if q = joinPath out (normalize_path p) then some b else d.contents q }))
        ∧ (firstEntry st (cascVariants p) = none →
            fm.ensure_extracted d p a = (.error ("File not found in CASC: " ++ p), fm, d)))
    ∧ ((fm.is_extracted (normalize_path p) = true →
          d.contents (joinPath out (normalize_path p)) = none) →
        fm.casc_storage = none →
        ∀ g, fm.game_path = some g →
        ∀ b, d.contents (joinPath g (normalize_path p)) = some b →
        d.writeOk (joinPath out (normalize_path p)) = true →
        fm.ensure_extracted d p a =
          (.ok (joinPath out (normalize_path p)),
           fm.record_extract (normalize_path p) a,
           { d with contents := fun q =>
               if q = joinPath out (normalize_path p) then some b else d.contents q }))
    ∧ ((fm.is_extracted (normalize_path p) = true →
          d.contents (joinPath out (normalize_path p)) = none) →
        fm.casc_storage = none →
        (∀ g, fm.game_path = some g → d.contents (joinPath g (normalize_path p)) = none) →
        (fm.ensure_extracted d p a).1 =
          .error ("CASC storage not configured and file not found in game directory: " ++ p)) := by
  refine ⟨?_, ?_, ?_, ?_⟩
  · intro h1 h2
    simp [FileManager.ensure_extracted, h1, hout, h2]
  · intro hmiss st hst
    constructor
    · intro b hb hw
      by_cases hie : fm.is_extracted (normalize_path p) = true
      · have hc := hmiss hie
        simp [FileManager.ensure_extracted, hie, hout, hc, hst,
          CascStorage.extract_file, hb, Disk.write, hw]
      · simp [FileManager.ensure_extracted, hie, hout, hst,
          CascStorage.extract_file, hb, Disk.write, hw]
    · intro hb
      by_cases hie : fm.is_extracted (normalize_path p) = true
      · have hc := hmiss hie
        simp [FileManager.ensure_extracted, hie, hout, hc, hst,
          CascStorage.extract_file, hb]
      · simp [FileManager.ensure_extracted, hie, hout, hst,
          CascStorage.extract_file, hb]
  · intro hmiss hcasc g hg b hb hw
    by_cases hie : fm.is_extracted (normalize_path p) = true
    · have hc := hmiss hie
      simp [FileManager.ensure_extracted, hie, hout, hc, hcasc, hg, hb, Disk.write, hw]
    · simp [FileManager.ensure_extracted, hie, hout, hcasc, hg, hb, Disk.write, hw]
  · intro hmiss hcasc hgame
    rcases hg : fm.game_path with _ | g
    · by_cases hie : fm.is_extracted (normalize_path p) = true
      · have hc := hmiss hie
        simp [FileManager.ensure_extracted, hie, hout, hc, hcasc, hg]
      · simp [FileManager.ensure_extracted, hie, hout, hcasc, hg]
    · have hc2 := hgame g hg
      by_cases hie : fm.is_extracted (normalize_path p) = true
      · have hc := hmiss hie
        simp [FileManager.ensure_extracted, hie, hout, hc, hcasc, hg, hc2]
      · simp [FileManager.ensure_extracted, hie, hout, hcasc, hg, hc2]

theorem ensure_extracted_fallback_order_witness :
    fmCasc.ensure_extracted demoDisk "X.json" "m" =
      (.ok (joinPath "o" (normalize_path "X.json")),
       fmCasc.record_extract (normalize_path "X.json") "m",
       { demoDisk with contents := fun q =>
           if q = joinPath "o" (normalize_path "X.json") then some [7]
           else demoDisk.contents q }) :=
  ((ensure_extracted_fallback_order fmCasc demoDisk "X.json" "m" "o" rfl).2.1
    (fun h => absurd h (by decide)) demoCasc rfl).1 [7] (by decide) rfl

end Infinite
